import Mathlib

/-!
Verification development for the Tabify playback-synchronization core.

The definitions below are a shallow embedding of:
  * the transcription sanitizer inlined in `generateGuitarTabFromAudio`
    (src/unnamed/part_000, lines 127-151),
  * the static tuning tables (src/types.ts),
  * the synthesized-playback scheduler `playSynth`, the playhead poll
    `updatePlaybackProgress`, the flattened measure index `flatMeasures`,
    and the controller operations `stopAllPlayback` /
    `toggleOriginalPlayback` (src/components/TabRenderer.tsx).

JavaScript numbers are modelled as rationals (the programs only perform
field arithmetic and floor/round, with no overflow-relevant operations);
untyped JavaScript values handled by the sanitizer are modelled by the
`JsonVal` inductive together with explicit coercion functions mirroring
the JavaScript semantics actually exercised by the code (truthiness,
property access, ToNumber, ToString, `parseInt`, `Math.round`).
-/

/-- Untyped JavaScript value as it can arrive from `JSON.parse` (plus
`undefined` for the result of reading an absent property). -/
inductive JsonVal where
  | undefined : JsonVal
  | null : JsonVal
  | bool : Bool → JsonVal
  | num : ℚ → JsonVal
  | str : String → JsonVal
  | arr : List JsonVal → JsonVal
  | obj : List (String × JsonVal) → JsonVal

/-- First-match field lookup in an object literal (duplicate keys do not
occur in the data handled here). -/
def getField : List (String × JsonVal) → String → Option JsonVal
  | [], _ => none
  | (k, v) :: fs, key => if k = key then some v else getField fs key

/-- JavaScript property read `v.key`: throws a TypeError on `null` or
`undefined`, yields `undefined` on primitives and on arrays (the keys read
by this program are never array indices), and looks the key up on objects. -/
def getProp : JsonVal → String → Except Unit JsonVal
  | .null, _ => .error ()
  | .undefined, _ => .error ()
  | .obj fs, key => .ok ((getField fs key).getD .undefined)
  | _, _ => .ok .undefined

/-- Property read on a value already known not to be `null`/`undefined`. -/
def propD : JsonVal → String → JsonVal
  | .obj fs, key => (getField fs key).getD .undefined
  | _, _ => .undefined

/-- JavaScript truthiness. `NaN` does not occur: every numeric value in
scope comes from `JSON.parse`, so it is a finite decimal, modelled in `ℚ`. -/
def truthy : JsonVal → Bool
  | .undefined => false
  | .null => false
  | .bool b => b
  | .num q => if q = 0 then false else true
  | .str s => if s = "" then false else true
  | .arr _ => true
  | .obj _ => true

/-- Whether the value is an array (`Array.isArray`). -/
def isArr : JsonVal → Bool
  | .arr _ => true
  | _ => false

/-- Whether a JavaScript property assignment `v.key = x` succeeds.  In
strict mode (ES modules are strict) an assignment to a property of a
primitive throws a TypeError; objects and arrays accept it. -/
def canAssign : JsonVal → Bool
  | .obj _ => true
  | .arr _ => true
  | _ => false

/-- Decimal value of a digit character. -/
def digitVal (c : Char) : ℕ := c.toNat - '0'.toNat

/-- Value of a list of decimal digit characters. -/
def decVal (cs : List Char) : ℕ := cs.foldl (fun a c => a * 10 + digitVal c) 0

/-- Value of a list of hexadecimal digit characters. -/
def hexVal (cs : List Char) : ℕ :=
  cs.foldl (fun a c =>
    a * 16 + (if c.isDigit then digitVal c
              else if 'a' ≤ c ∧ c ≤ 'f' then c.toNat - 'a'.toNat + 10
              else c.toNat - 'A'.toNat + 10)) 0

/-- Hexadecimal digit test. -/
def isHexDigitChar (c : Char) : Bool :=
  c.isDigit || ('a' ≤ c && c ≤ 'f') || ('A' ≤ c && c ≤ 'F')

/-- JavaScript `parseInt(s)` with no radix argument: skip leading
whitespace, take an optional sign, then either a `0x`/`0X` hexadecimal
literal or a maximal run of decimal digits; `none` models `NaN` (no
digits found). -/
def jsParseInt (s : String) : Option ℤ :=
  let cs := s.data.dropWhile Char.isWhitespace
  let signed : ℤ × List Char :=
    match cs with
    | '-' :: r => (-1, r)
    | '+' :: r => (1, r)
    | _ => (1, cs)
  let sg := signed.1
  match signed.2 with
  | '0' :: x :: r =>
    if x = 'x' ∨ x = 'X' then
      match r.takeWhile isHexDigitChar with
      | [] => none
      | ds => some (sg * hexVal ds)
    else
      some (sg * decVal (('0' :: x :: r).takeWhile Char.isDigit))
  | rest =>
    match rest.takeWhile Char.isDigit with
    | [] => none
    | ds => some (sg * decVal ds)

/-- JavaScript `Math.round`: round half towards positive infinity. -/
def jsRound (q : ℚ) : ℤ := ⌊q + 1 / 2⌋

/-- Numeric-string parsing for `ToNumber` (the `Number(string)` grammar
restricted to plain signed decimal notation; exponent and hexadecimal
forms, which never occur in the data reaching this coercion, are mapped
to `NaN`). Empty / all-whitespace strings coerce to `0`. -/
def strToNumber (s : String) : Option ℚ :=
  let cs := (s.data.dropWhile Char.isWhitespace).reverse.dropWhile Char.isWhitespace |>.reverse
  if cs.isEmpty then some 0 else
  let signed : ℚ × List Char :=
    match cs with
    | '-' :: r => (-1, r)
    | '+' :: r => (1, r)
    | _ => (1, cs)
  let sg := signed.1
  let ip := signed.2.takeWhile Char.isDigit
  match signed.2.dropWhile Char.isDigit with
  | [] => if ip.isEmpty then none else some (sg * decVal ip)
  | '.' :: fr =>
    let fp := fr.takeWhile Char.isDigit
    if (fr.dropWhile Char.isDigit).isEmpty then
      if ip.isEmpty ∧ fp.isEmpty then none
      else some (sg * ((decVal ip : ℚ) + (decVal fp : ℚ) / 10 ^ fp.length))
    else none
  | _ => none

/-- JavaScript `ToNumber`; `none` models `NaN`.  Objects coerce through
the string `"[object Object]"`, hence `NaN`; an array coerces through its
joined string form — the empty array to `0`, other arrays through
`strToNumber` of their single element when it is itself numeric text
(deeper array nesting, which cannot reach the sanitizer's numeric
positions meaningfully, is mapped to `NaN`). -/
def toNumber : JsonVal → Option ℚ
  | .undefined => none
  | .null => some 0
  | .bool b => some (if b then 1 else 0)
  | .num q => some q
  | .str s => strToNumber s
  | .arr [] => some 0
  | .arr [.num q] => some q
  | .arr [.str s] => strToNumber s
  | .arr [.null] => some 0
  | .arr [.undefined] => some 0
  | .arr _ => none
  | .obj _ => none

/-- Decimal rendering of a rational, matching JavaScript number-to-string
for the integral and plain-decimal values that occur in this program
(scientific notation for extreme magnitudes is not modelled; such values
do not arise from the data handled here). -/
def numToString (q : ℚ) : String :=
  if q.den = 1 then toString q.num else
  match (List.range 40).find? (fun k => 10 ^ k % q.den = 0) with
  | some k =>
    let scaled : ℕ := q.num.natAbs * (10 ^ k / q.den)
    let ip := scaled / 10 ^ k
    let fp := scaled % 10 ^ k
    let fpStr := toString fp
    let fpPad := String.mk (List.replicate (k - fpStr.length) '0') ++ fpStr
    (if q.num < 0 then "-" else "") ++ toString ip ++ "." ++ fpPad
  | none => toString q

mutual
/-- JavaScript `ToString` on the values in scope. -/
def jsToString : JsonVal → String
  | .undefined => "undefined"
  | .null => "null"
  | .bool b => cond b "true" "false"
  | .num q => numToString q
  | .str s => s
  | .obj _ => "[object Object]"
  | .arr xs => jsArrJoin xs

/-- `Array.prototype.toString`: elements joined by commas, with `null`
and `undefined` elements rendered as the empty string. -/
def jsArrJoin : List JsonVal → String
  | [] => ""
  | [.null] => ""
  | [.undefined] => ""
  | [x] => jsToString x
  | .null :: xs => "," ++ jsArrJoin xs
  | .undefined :: xs => "," ++ jsArrJoin xs
  | x :: xs => jsToString x ++ "," ++ jsArrJoin xs
end

/-! ## Sanitizer (inlined in `generateGuitarTabFromAudio`, part_000 lines 127-151) -/

/-- A note as it leaves the sanitizer: `string` rounded and clamped to
1..6, `position` rounded and clamped to 0..15, `fret` coerced to text. -/
structure TNote where
  string : ℤ
  position : ℤ
  fret : String
deriving DecidableEq, Repr

/-- Fret coercion `note.fret?.toString() || '0'`: optional chaining turns
`null`/`undefined` into `undefined` (falsy), and a falsy string result
(the empty string) also falls back to `"0"`. -/
def fretOut (v : JsonVal) : String :=
  match v with
  | .null => "0"
  | .undefined => "0"
  | w => if jsToString w = "" then "0" else jsToString w

/-- The per-note filter-and-map of the sanitizer:
`filter(n => n && typeof n.string === 'number' && n.position >= 0)` then
`map` with round-and-clamp; `none` means the note is dropped. -/
def sanitizeNote (n : JsonVal) : Option TNote :=
  if truthy n then
    match propD n "string", toNumber (propD n "position") with
    | .num s, some p =>
      if 0 ≤ p then
        some { string := min (max 1 (jsRound s)) 6,
               position := min (max 0 (jsRound p)) 15,
               fret := fretOut (propD n "fret") }
      else none
    | _, _ => none
  else none

/-- Stable sort by ascending position, the effect of
`sort((a, b) => a.position - b.position)` (`Array.prototype.sort` is
stable). -/
def sortTNotes (ns : List TNote) : List TNote :=
  ns.mergeSort (fun a b => decide (a.position ≤ b.position))

/-- A measure after sanitization.  The `chords` field is kept as the raw
value: the code only replaces a falsy `chords` with `[]` and otherwise
leaves it untouched. -/
structure TMeasure where
  chords : JsonVal
  notes : List TNote

/-- A section after sanitization (only the `measures` field is modelled;
all other fields pass through the sanitizer untouched). -/
structure TSection where
  measures : List TMeasure

/-- The repair `if (!x.key) x.key = []` of the sanitizer: a truthy value
is kept, a falsy one is replaced by `[]` when the target accepts the
assignment (`none` models the strict-mode TypeError on a primitive
target). -/
def defaultEmpty (target v : JsonVal) : Option JsonVal :=
  if truthy v then some v
  else if canAssign target then some (JsonVal.arr []) else none

/-- Exception-propagating traversal, the `forEach` body raising through
the loop. -/
def mapExcept (f : α → Except ε β) : List α → Except ε (List β)
  | [] => .ok []
  | x :: xs =>
    match f x with
    | .error e => .error e
    | .ok y =>
      match mapExcept f xs with
      | .error e => .error e
      | .ok ys => .ok (y :: ys)

/-- One measure of the sanitizer: default falsy `notes`/`chords` to `[]`
(a strict-mode TypeError if the measure is a primitive), then filter, map
and sort the notes (a TypeError if `notes` is a truthy non-array). -/
def sanitizeMeasure (m : JsonVal) : Except Unit TMeasure :=
  match getProp m "notes" with
  | .error _ => .error ()
  | .ok notes0 =>
    match defaultEmpty m notes0 with
    | none => .error ()
    | some notes1 =>
      match getProp m "chords" with
      | .error _ => .error ()
      | .ok chords0 =>
        match defaultEmpty m chords0 with
        | none => .error ()
        | some chords1 =>
          match notes1 with
          | .arr ns =>
            .ok { chords := chords1, notes := sortTNotes (ns.filterMap sanitizeNote) }
          | _ => .error ()

/-- One section of the sanitizer: default a falsy `measures` to `[]`,
then sanitize each measure (`forEach` over a truthy non-array is a
TypeError). -/
def sanitizeSection (s : JsonVal) : Except Unit TSection :=
  match getProp s "measures" with
  | .error _ => .error ()
  | .ok ms0 =>
    match defaultEmpty s ms0 with
    | none => .error ()
    | some ms1 =>
      match ms1 with
      | .arr ms =>
        match mapExcept sanitizeMeasure ms with
        | .ok tms => .ok { measures := tms }
        | .error e => .error e
      | _ => .error ()

/-- Sanitization failure: `invalidStructure` is the explicit
`TranscriptionError("...no musical sections", "INVALID_STRUCTURE")`;
`typeError` is a TypeError escaping the repair loops, which the outer
catch rewraps as an "UNKNOWN" `TranscriptionError`. -/
inductive SanErr where
  | invalidStructure : SanErr
  | typeError : SanErr
deriving DecidableEq, Repr

/-- The deep-validation-and-sanitization phase of
`generateGuitarTabFromAudio` applied to the parsed JSON value:
`if (!parsed.sections || !Array.isArray(parsed.sections)) throw
INVALID_STRUCTURE`, then the in-place repair of every section. -/
def sanitize (parsed : JsonVal) : Except SanErr (List TSection) :=
  match getProp parsed "sections" with
  | .error _ => .error .typeError
  | .ok secs =>
    if truthy secs then
      match secs with
      | .arr ss =>
        match mapExcept sanitizeSection ss with
        | .ok sections => .ok sections
        | .error _ => .error .typeError
      | _ => .error .invalidStructure
    else .error .invalidStructure

/-- Benign measure shape: an object whose `notes` and `chords` fields are
each either a sequence or falsy (the shapes on which the repair loop
cannot raise a TypeError). -/
def benignMeasure : JsonVal → Bool
  | .obj fs =>
    (match ((getField fs "notes").getD .undefined) with
     | .arr _ => true
     | v => !truthy v) &&
    (match ((getField fs "chords").getD .undefined) with
     | .arr _ => true
     | v => !truthy v)
  | _ => false

/-- Benign section shape: an object whose `measures` field is either a
sequence of benign measures or falsy. -/
def benignSection : JsonVal → Bool
  | .obj fs =>
    (match ((getField fs "measures").getD .undefined) with
     | .arr ms => ms.all benignMeasure
     | v => !truthy v)
  | _ => false

/-- Structural completeness of a sanitized result: every measure carries
a chords sequence (its notes and every section's measures are sequences
by construction of `TMeasure`/`TSection`). -/
def completeResult (out : List TSection) : Prop :=
  ∀ sec ∈ out, ∀ m ∈ sec.measures, ∃ cs, m.chords = JsonVal.arr cs

/-! ## Static tuning data (src/types.ts) and the time grid -/

/-- Open-string frequencies for E Standard, strings 6 (low) to 1 (high). -/
def eStdFreqs : List ℚ := [82.41, 110.00, 146.83, 196.00, 246.94, 329.63]

/-- The `TUNING_FREQS` table: tuning name to open-string frequencies
ordered from string 6 (lowest) to string 1 (highest). -/
def TUNING_FREQS : List (String × List ℚ) :=
  [("E Standard", eStdFreqs),
   ("Drop D", [73.42, 110.00, 146.83, 196.00, 246.94, 329.63]),
   ("D Standard", [73.42, 98.00, 130.81, 174.61, 220.00, 293.66]),
   ("Open G", [73.42, 98.00, 146.83, 196.00, 246.94, 293.66]),
   ("DADGAD", [73.42, 110.00, 146.83, 196.00, 220.00, 293.66])]

/-- The tuning table used by `playSynth`:
`TUNING_FREQS[data.tuning || 'E Standard'] || TUNING_FREQS['E Standard']`
(an absent or empty tuning name keys E Standard; an unrecognized name
falls back to the E Standard row). -/
def tuningBase (name : Option String) : List ℚ :=
  let key := match name with
    | none => "E Standard"
    | some s => if s = "" then "E Standard" else s
  match (TUNING_FREQS.lookup key) with
  | some fs => fs
  | none => eStdFreqs

/-- Effective tempo `data.tempo || 120`: an absent tempo and the falsy
tempo `0` default to 120; every other value — including negative tempos —
is used as-is. -/
def effTempo : Option ℚ → ℚ
  | none => 120
  | some q => if q = 0 then 120 else q

/-- The time grid computed (identically) at the top of `playSynth`
(lines 175-178) and of `updatePlaybackProgress` (lines 119-121). -/
structure Grid where
  secondsPerBeat : ℚ
  secondsPerMeasure : ℚ
  secondsPerPosition : ℚ
deriving DecidableEq, Repr

/-- Time grid of a (possibly absent) tempo:
`secondsPerBeat = 60/tempo`, `secondsPerMeasure = (60/tempo)*4`,
`secondsPerPosition = secondsPerMeasure/16`. -/
def timeGrid (tempo : Option ℚ) : Grid :=
  let t := effTempo tempo
  { secondsPerBeat := 60 / t,
    secondsPerMeasure := (60 / t) * 4,
    secondsPerPosition := ((60 / t) * 4) / 16 }

/-! ## Event scheduler (`playSynth`, TabRenderer lines 164-243) -/

/-- A note as the scheduler consumes it (`data` is whatever
`GuitarTabResult` the component was handed; the fret is used only through
`note.fret.toString()`, modelled here as the already-coerced text). -/
structure SNote where
  string : ℤ
  fret : String
  position : ℚ
deriving DecidableEq, Repr

/-- A measure as the scheduler consumes it (chord annotations play no
role in scheduling). -/
structure SMeasure where
  notes : List SNote
deriving DecidableEq, Repr

/-- A section as the scheduler consumes it. -/
structure SSection where
  measures : List SMeasure
deriving DecidableEq, Repr

/-- A scheduled sound event: a metronome click (1200 Hz accent on beat 0,
800 Hz otherwise) or a note tone carrying its onset time, the open-string
base frequency that was looked up, and the parsed fret number.  The
attack/decay envelope parameters are fixed constants in the code and are
not modelled. -/
inductive SEvent where
  | click : ℚ → Bool → SEvent
  | tone : ℚ → ℚ → ℤ → SEvent
deriving DecidableEq, Repr

/-- Open-string frequency lookup `tuningBaseFreqs[6 - note.string]`
(meaningful for strings 1..6, the range produced by the sanitizer; other
values would make the real code fail to schedule anything further). -/
def baseFreqFor (tb : List ℚ) (stringNum : ℤ) : ℚ :=
  tb.getD (6 - stringNum).toNat 0

/-- The per-note scheduling step: parse the fret (`return` on NaN — the
note is skipped), look up the base frequency and schedule the tone at
`measureStartTime + note.position * secondsPerPosition`. -/
def noteEvent (tb : List ℚ) (spp : ℚ) (mStart : ℚ) (n : SNote) : Option SEvent :=
  match jsParseInt n.fret with
  | none => none
  | some fretNum => some (.tone (mStart + n.position * spp) (baseFreqFor tb n.string) fretNum)

/-- Stable sort of a measure's notes by ascending position
(`[...measure.notes].sort((a, b) => a.position - b.position)`). -/
def sortSNotes (ns : List SNote) : List SNote :=
  ns.mergeSort (fun a b => decide (a.position ≤ b.position))

/-- All events of one measure starting at `mStart`: four metronome clicks
(when enabled) at `mStart + beat * secondsPerBeat`, then one tone per
note with a parseable fret, in ascending-position order. -/
def measureEvents (metronome : Bool) (spb spp : ℚ) (tb : List ℚ)
    (mStart : ℚ) (m : SMeasure) : List SEvent :=
  (if metronome then
    (List.range 4).map (fun beat => SEvent.click (mStart + beat * spb) (beat = 0))
   else [])
  ++ (sortSNotes m.notes).filterMap (noteEvent tb spp mStart)

/-- Fold over the flattened measure sequence: schedule each measure and
advance `measureStartTime += secondsPerMeasure`. -/
def scheduleFrom (metronome : Bool) (spb spp spm : ℚ) (tb : List ℚ) :
    ℚ → List SMeasure → List SEvent
  | _, [] => []
  | t, m :: ms => measureEvents metronome spb spp tb t m
      ++ scheduleFrom metronome spb spp spm tb (t + spm) ms

/-- Every sound event scheduled by one `playSynth` run: the time grid is
computed from `data.tempo || 120`, the tuning row is looked up with the
E Standard fallback, playback logically starts at `ctx.currentTime + 0.2`,
and sections' measures are traversed in document order. -/
def playSynthEvents (tempo : Option ℚ) (tuning : Option String)
    (sections : List SSection) (metronome : Bool) (ctxNow : ℚ) : List SEvent :=
  let g := timeGrid tempo
  let tb := tuningBase tuning
  let startTime := ctxNow + 2 / 10
  scheduleFrom metronome g.secondsPerBeat g.secondsPerPosition g.secondsPerMeasure tb
    startTime (sections.flatMap (·.measures))

/-- Realized oscillator frequency of a tone event:
`baseFreq * Math.pow(2, fretNum / 12)` (12-tone equal temperament). -/
noncomputable def toneFreq (base : ℚ) (fretNum : ℤ) : ℝ :=
  (base : ℝ) * (2 : ℝ) ^ ((fretNum : ℝ) / 12)

/-! ## Flattened measure index and playhead poll (TabRenderer lines 40-49, 116-142) -/

/-- One entry of the flattened measure index: the `(section, measure)`
pair annotated with its section index, in-section measure index and
running absolute index. -/
structure FlatM where
  sectionIdx : ℕ
  measureIdx : ℕ
  absoluteIdx : ℕ
  measure : SMeasure
deriving DecidableEq, Repr

/-- The `flatMeasures` memo: flatten sections' measures in document order,
tagging each with `(sIdx, mIdx)`, then re-map assigning the running
absolute index. -/
def flatMeasures (sections : List SSection) : List FlatM :=
  ((sections.mapIdx (fun sIdx sec =>
      sec.measures.mapIdx (fun mIdx m =>
        (sIdx, mIdx, m)))).flatten).mapIdx
    (fun i p => { sectionIdx := p.1, measureIdx := p.2.1, absoluteIdx := i, measure := p.2.2 })

/-- Outcome of one playhead poll.  `crash` models the TypeError the real
code would raise on a negative absolute measure index (reading a property
of `flatMeasures[negative]`), which is reachable only with a negative
time grid. -/
inductive TickResult where
  | notStarted : TickResult
  | playing : ℕ → ℕ → ℤ → TickResult
  | done : TickResult
  | crash : TickResult
deriving DecidableEq, Repr

/-- The pure computation of `updatePlaybackProgress` (lines 119-141):
elapsed audio-clock time against the grid, `Math.floor` division into
total 16th positions, absolute measure and in-measure position (`%` is
JavaScript remainder, i.e. truncated mod), and the bounds check against
`flatMeasures.length`. -/
def tickCompute (tempo : Option ℚ) (flat : List FlatM) (startT now : ℚ) : TickResult :=
  let spp := (timeGrid tempo).secondsPerPosition
  let elapsed := now - startT
  if elapsed < 0 then .notStarted
  else
    let totalPositions : ℤ := ⌊elapsed / spp⌋
    let absMeasureIdx : ℤ := ⌊(totalPositions : ℚ) / 16⌋
    let posInMeasure : ℤ := totalPositions.tmod 16
    if 0 ≤ absMeasureIdx then
      match flat[absMeasureIdx.toNat]? with
      | some e => .playing e.sectionIdx e.measureIdx posInMeasure
      | none => .done
    else .crash

/-! ## Playback controller (TabRenderer lines 92-114, 144-173, 242) -/

/-- The original-recording `HTMLAudioElement` held in `audioRef`. -/
structure AudioEl where
  paused : Bool
  currentTime : ℚ
deriving DecidableEq, Repr

/-- Controller state: the original-audio element (absent when no source
URL was supplied), the two mode flags, the synth session data (audio
context, logical start time, scheduled sound handles, pending timer ids,
the per-frame polling registration) and the visible cursor. -/
structure CState where
  audio : Option AudioEl
  isPlayingOriginal : Bool
  isPlayingSynth : Bool
  hasSynthCtx : Bool
  synthStart : ℚ
  oscillators : List SEvent
  timeouts : List ℕ
  animationFrame : Option ℕ
  activeSection : Option ℕ
  activeMeasure : Option ℕ
  activePos : Option ℤ
deriving DecidableEq, Repr

/-- `stopAllPlayback` (lines 92-114): pause and rewind the original
audio, clear the original flag, force-stop and discard every scheduled
oscillator (the `try`/`catch` makes each stop non-failing), clear every
pending timer, cancel the polling registration, clear the synth flag and
reset the cursor to no active position. -/
def stopAllPlayback (s : CState) : CState :=
  { s with
    audio := s.audio.map (fun a => { a with paused := true, currentTime := 0 }),
    isPlayingOriginal := false,
    oscillators := [],
    timeouts := [],
    animationFrame := none,
    isPlayingSynth := false,
    activeSection := none,
    activeMeasure := none,
    activePos := none }

/-- The body of `toggleOriginalPlayback` after the mutual-exclusion
teardown: refuse (warn) when no audio element exists, pause when the
snapshot said original was playing, otherwise start playing.
`wasOriginal` is the `isPlayingOriginal` value captured by the render
closure. -/
def toggleCore (s1 : CState) (wasOriginal : Bool) : CState :=
  match s1.audio with
  | none => s1
  | some a =>
    if wasOriginal then
      { s1 with audio := some { a with paused := true }, isPlayingOriginal := false }
    else
      { s1 with audio := some { a with paused := false }, isPlayingOriginal := true }

/-- `toggleOriginalPlayback` (lines 144-162): tear the synth session down
first when it is active, then run the toggle body on the captured state
flags. -/
def toggleOriginalPlayback (s : CState) : CState :=
  toggleCore (if s.isPlayingSynth then stopAllPlayback s else s) s.isPlayingOriginal

/-- The start half of `playSynth` (lines 171-242), acting on the state
left by the mutual-exclusion teardown: create the audio context, raise
the synth flag, record the logical start time `ctx.currentTime + 0.2`,
schedule every event (pushing each sound handle), and register the
polling callback. -/
def synthStartCore (s1 : CState) (tempo : Option ℚ) (tuning : Option String)
    (sections : List SSection) (metronome : Bool) (ctxNow : ℚ) (frameId : ℕ) :
    CState × List SEvent :=
  let evs := playSynthEvents tempo tuning sections metronome ctxNow
  ({ s1 with
      hasSynthCtx := true,
      isPlayingSynth := true,
      synthStart := ctxNow + 2 / 10,
      oscillators := s1.oscillators ++ evs,
      animationFrame := some frameId }, evs)

/-- `playSynth` (lines 164-243): stop original playback first when it is
active; acting as a stop when the synth flag was set, otherwise start a
new synth session.  Returns the new state together with the list of
events scheduled by this call. -/
def playSynth (s : CState) (tempo : Option ℚ) (tuning : Option String)
    (sections : List SSection) (metronome : Bool) (ctxNow : ℚ) (frameId : ℕ) :
    CState × List SEvent :=
  let s1 := if s.isPlayingOriginal then stopAllPlayback s else s
  if s.isPlayingSynth then (stopAllPlayback s1, [])
  else synthStartCore s1 tempo tuning sections metronome ctxNow frameId

/-- The effectful wrapper of one `updatePlaybackProgress` invocation:
bail out when no synth context or the flag is down; otherwise update the
cursor and re-register the poll on `playing`, only re-register on
`notStarted` (cursor untouched), and run the full teardown on `done`. -/
def updatePlaybackProgress (tempo : Option ℚ) (flat : List FlatM)
    (now : ℚ) (frameId : ℕ) (s : CState) : CState :=
  if s.hasSynthCtx = false ∨ s.isPlayingSynth = false then s
  else
    match tickCompute tempo flat s.synthStart now with
    | .notStarted => { s with animationFrame := some frameId }
    | .playing secIdx mIdx pos =>
      { s with
        activeSection := some secIdx,
        activeMeasure := some mIdx,
        activePos := some pos,
        animationFrame := some frameId }
    | .done => stopAllPlayback s
    | .crash => s

/-! ## Theorems -/

/-- C7: stopping playback is unconditional and idempotent — from every
controller state, `stopAllPlayback` empties the set of scheduled sound
handles, clears every timer, cancels the polling registration, resets the
cursor to no active position and lowers both mode flags (so the state is
Idle, in particular when it already was); running it twice gives exactly
the state of running it once, and it is a total function (the `try`/
`catch` around each oscillator stop means no call can fail). -/
theorem stopAllPlayback_idempotent_teardown (s : CState) :
    stopAllPlayback (stopAllPlayback s) = stopAllPlayback s ∧
    (stopAllPlayback s).oscillators = [] ∧
    (stopAllPlayback s).timeouts = [] ∧
    (stopAllPlayback s).animationFrame = none ∧
    (stopAllPlayback s).activeSection = none ∧
    (stopAllPlayback s).activeMeasure = none ∧
    (stopAllPlayback s).activePos = none ∧
    (stopAllPlayback s).isPlayingOriginal = false ∧
    (stopAllPlayback s).isPlayingSynth = false := by
  refine ⟨?_, rfl, rfl, rfl, rfl, rfl, rfl, rfl, rfl⟩
  cases h : s.audio <;> simp [stopAllPlayback, h]

/-- C2: mutual exclusion of the two playback modes.  After any of the
three controller operations at most one of the two mode flags is up;
starting synthesized playback while the original recording is playing
runs the start half on the state left by the full teardown (so the
original element is paused before any sound handle is pushed); starting
original playback while a synth session is active runs the toggle body on
the state left by the full teardown (all handles, timers and the polling
registration gone before the original audio starts). -/
theorem playback_mutual_exclusion (s : CState) (tempo : Option ℚ)
    (tuning : Option String) (sections : List SSection) (metronome : Bool)
    (ctxNow : ℚ) (frameId : ℕ) :
    (¬ ((stopAllPlayback s).isPlayingOriginal = true ∧
        (stopAllPlayback s).isPlayingSynth = true)) ∧
    (¬ ((toggleOriginalPlayback s).isPlayingOriginal = true ∧
        (toggleOriginalPlayback s).isPlayingSynth = true)) ∧
    (¬ (((playSynth s tempo tuning sections metronome ctxNow frameId).1).isPlayingOriginal = true ∧
        ((playSynth s tempo tuning sections metronome ctxNow frameId).1).isPlayingSynth = true)) ∧
    (s.isPlayingOriginal = true → s.isPlayingSynth = false →
      playSynth s tempo tuning sections metronome ctxNow frameId
        = synthStartCore (stopAllPlayback s) tempo tuning sections metronome ctxNow frameId ∧
      (stopAllPlayback s).isPlayingOriginal = false ∧
      (∀ a, s.audio = some a →
        (stopAllPlayback s).audio = some { a with paused := true, currentTime := 0 })) ∧
    (s.isPlayingSynth = true →
      toggleOriginalPlayback s = toggleCore (stopAllPlayback s) s.isPlayingOriginal ∧
      (stopAllPlayback s).isPlayingSynth = false ∧
      (stopAllPlayback s).oscillators = [] ∧
      (stopAllPlayback s).timeouts = [] ∧
      (stopAllPlayback s).animationFrame = none) := by
  refine ⟨by simp [stopAllPlayback], ?_, ?_, ?_, ?_⟩
  · cases hsy : s.isPlayingSynth <;>
      cases ho : s.isPlayingOriginal <;>
        cases ha : s.audio <;>
          simp [toggleOriginalPlayback, toggleCore, stopAllPlayback, hsy, ho, ha]
  · cases hsy : s.isPlayingSynth <;> cases ho : s.isPlayingOriginal <;>
      simp [playSynth, synthStartCore, stopAllPlayback, hsy, ho]
  · intro ho hsy
    refine ⟨by simp [playSynth, hsy, ho], by simp [stopAllPlayback], ?_⟩
    intro a ha
    simp [stopAllPlayback, ha]
  · intro hsy
    exact ⟨by simp [toggleOriginalPlayback, hsy], rfl, rfl, rfl, rfl⟩

/-- C8 counterexample: with a synth session active and no original audio
source, requesting original playback does not leave the playback state
unchanged — the synth session is torn down before the missing-source
check, so the state changes (the synth flag drops, the poll is
cancelled). -/
theorem toggle_missing_source_counterexample :
    (CState.mk none false true true 0 [] [] (some 1) (some 0) (some 0) (some 0)).audio = none ∧
    toggleOriginalPlayback
        (CState.mk none false true true 0 [] [] (some 1) (some 0) (some 0) (some 0))
      ≠ CState.mk none false true true 0 [] [] (some 1) (some 0) (some 0) (some 0) := by
  decide

/-- C8 (amended): requesting original playback with no original audio
source refuses to start (the original flag is never raised); it leaves
the controller state entirely unchanged provided synthesized playback is
not active, while with a synth session active the session is torn down
(the state becomes exactly `stopAllPlayback`) and playback still refuses
to start. -/
theorem toggle_missing_source_refusal (s : CState) (h : s.audio = none) :
    (s.isPlayingSynth = false → toggleOriginalPlayback s = s) ∧
    (s.isPlayingSynth = true → toggleOriginalPlayback s = stopAllPlayback s) ∧
    (toggleOriginalPlayback s).isPlayingOriginal
      = (if s.isPlayingSynth then false else s.isPlayingOriginal) := by
  refine ⟨?_, ?_, ?_⟩ <;>
    cases hsy : s.isPlayingSynth <;>
      simp [toggleOriginalPlayback, toggleCore, stopAllPlayback, hsy, h]

/-- C8 witness: the amended theorem applied to a concrete idle state with
no audio source. -/
theorem toggle_missing_source_refusal_witness :
    toggleOriginalPlayback (CState.mk none false false false 0 [] [] none none none none)
      = CState.mk none false false false 0 [] [] none none none none :=
  (toggle_missing_source_refusal
    (CState.mk none false false false 0 [] [] none none none none) rfl).1 rfl

/-- C4 counterexample: a strictly negative tempo is truthy in JavaScript,
so `data.tempo || 120` does not replace it by 120 — at tempo `-5` the
grid is negative instead of equal to the 120-BPM grid. -/
theorem tempo_default_counterexample :
    effTempo (some (-5)) = -5 ∧
    timeGrid (some (-5)) ≠ timeGrid (some 120) ∧
    (timeGrid (some (-5))).secondsPerBeat = -12 ∧
    (timeGrid (some 120)).secondsPerBeat = 1 / 2 := by
  refine ⟨by norm_num [effTempo], ?_, by norm_num [timeGrid, effTempo], by norm_num [timeGrid, effTempo]⟩
  intro hEq
  have := congrArg Grid.secondsPerBeat hEq
  norm_num [timeGrid, effTempo] at this

/-- C4 (amended): an absent tempo and the (falsy) tempo `0` make the time
grid — the one used both by event scheduling and by playhead tracking —
behave exactly as tempo 120; a strictly negative tempo, however, is used
as-is (the `||` default only catches falsy values). -/
theorem tempo_default_amended :
    timeGrid none = timeGrid (some 120) ∧
    timeGrid (some 0) = timeGrid (some 120) ∧
    (∀ flat startT now, tickCompute none flat startT now
        = tickCompute (some 120) flat startT now) ∧
    (∀ flat startT now, tickCompute (some 0) flat startT now
        = tickCompute (some 120) flat startT now) ∧
    (∀ tuning sections metronome ctxNow,
      playSynthEvents none tuning sections metronome ctxNow
        = playSynthEvents (some 120) tuning sections metronome ctxNow) ∧
    (∀ tuning sections metronome ctxNow,
      playSynthEvents (some 0) tuning sections metronome ctxNow
        = playSynthEvents (some 120) tuning sections metronome ctxNow) ∧
    (∀ q : ℚ, q < 0 → effTempo (some q) = q) := by
  have h0 : timeGrid (some 0) = timeGrid (some 120) := by norm_num [timeGrid, effTempo]
  have hn : timeGrid none = timeGrid (some 120) := by norm_num [timeGrid, effTempo]
  refine ⟨hn, h0, ?_, ?_, ?_, ?_, ?_⟩
  · intro flat startT now; simp [tickCompute, hn]
  · intro flat startT now; simp [tickCompute, h0]
  · intro tuning sections metronome ctxNow; simp [playSynthEvents, hn]
  · intro tuning sections metronome ctxNow; simp [playSynthEvents, h0]
  · intro q hq
    simp [effTempo, hq.ne]

/-- C4 witness: the amended theorem applied at tempo `-5`. -/
theorem tempo_default_amended_witness : effTempo (some (-5)) = -5 :=
  tempo_default_amended.2.2.2.2.2.2 (-5) (by norm_num)

/-- Membership in `mapIdx` as an indexed equation. -/
lemma mem_mapIdx_iff {α β : Type _} {l : List α} {f : ℕ → α → β} {b : β} :
    b ∈ l.mapIdx f ↔ ∃ i, ∃ h : i < l.length, f i l[i] = b := by
  rw [List.mem_iff_getElem]
  constructor
  · rintro ⟨i, h, rfl⟩
    exact ⟨i, by simpa using h, by simp⟩
  · rintro ⟨i, h, rfl⟩
    exact ⟨i, by simpa using h, by simp⟩

/-- C1: behaviour of one playhead poll.  With `elapsed = now - startT`
negative the tick reports `NotStarted`, leaves the visible cursor
untouched and re-registers the per-frame poll; with `elapsed ≥ 0` it
computes `totalPositions = ⌊elapsed / secondsPerPosition⌋`,
`absoluteMeasure = ⌊totalPositions / 16⌋` and
`positionInMeasure = totalPositions mod 16`, and then either reports the
section index and in-section measure index stored in the flattened-measure
entry at `absoluteMeasure` together with `positionInMeasure` (re-arming
the poll), or — when `absoluteMeasure` is at or past the end of
`flatMeasures` — reports `Done` and the wrapper performs the full
teardown (playback stopped, cursor reset).  The flattened index itself
lists every measure in document order: entry `i` carries absolute index
`i`, and its section/measure indices address exactly its measure in
`sections`. -/
theorem playhead_tick (tempo : Option ℚ) (sections : List SSection) (flat : List FlatM)
    (startT now elapsed spp : ℚ)
    (hflat : flat = flatMeasures sections)
    (hel : elapsed = now - startT)
    (hspp : spp = (timeGrid tempo).secondsPerPosition) :
    (elapsed < 0 →
      tickCompute tempo flat startT now = TickResult.notStarted ∧
      (∀ s : CState, ∀ frameId : ℕ, s.hasSynthCtx = true → s.isPlayingSynth = true →
        s.synthStart = startT →
        updatePlaybackProgress tempo flat now frameId s
          = { s with animationFrame := some frameId })) ∧
    (0 ≤ elapsed →
      ∀ total absM pos : ℤ,
        total = ⌊elapsed / spp⌋ → absM = ⌊(total : ℚ) / 16⌋ → pos = total.tmod 16 →
        (∀ e : FlatM, 0 ≤ absM → flat[absM.toNat]? = some e →
          tickCompute tempo flat startT now
            = TickResult.playing e.sectionIdx e.measureIdx pos ∧
          (∀ s : CState, ∀ frameId : ℕ, s.hasSynthCtx = true → s.isPlayingSynth = true →
            s.synthStart = startT →
            updatePlaybackProgress tempo flat now frameId s
              = { s with activeSection := some e.sectionIdx,
                         activeMeasure := some e.measureIdx,
                         activePos := some pos,
                         animationFrame := some frameId })) ∧
        (0 ≤ absM → (flat.length : ℤ) ≤ absM →
          tickCompute tempo flat startT now = TickResult.done ∧
          (∀ s : CState, ∀ frameId : ℕ, s.hasSynthCtx = true → s.isPlayingSynth = true →
            s.synthStart = startT →
            updatePlaybackProgress tempo flat now frameId s = stopAllPlayback s))) ∧
    (∀ i : ℕ, ∀ h : i < flat.length, (flat.get ⟨i, h⟩).absoluteIdx = i) ∧
    (∀ e ∈ flat, ∃ sec : SSection, sections[e.sectionIdx]? = some sec ∧
        sec.measures[e.measureIdx]? = some e.measure) := by
  subst hflat hel hspp
  refine ⟨?_, ?_, ?_, ?_⟩
  · intro h
    have ht : tickCompute tempo (flatMeasures sections) startT now = TickResult.notStarted := by
      simp [tickCompute, h]
    refine ⟨ht, ?_⟩
    intro s frameId h1 h2 h3
    simp [updatePlaybackProgress, h1, h2, h3, ht]
  · intro h0 total absM pos ht ha hp
    subst ht ha hp
    constructor
    · intro e habs hget
      have ht : tickCompute tempo (flatMeasures sections) startT now
          = TickResult.playing e.sectionIdx e.measureIdx
              ((⌊(now - startT) / (timeGrid tempo).secondsPerPosition⌋).tmod 16) := by
        simp [tickCompute, not_lt.mpr h0, habs, hget]
      refine ⟨ht, ?_⟩
      intro s frameId h1 h2 h3
      simp [updatePlaybackProgress, h1, h2, h3, ht]
    · intro habs hlen
      have hnone : (flatMeasures sections)[(⌊((⌊(now - startT) / (timeGrid tempo).secondsPerPosition⌋ : ℤ) : ℚ) / 16⌋).toNat]? = none := by
        apply List.getElem?_eq_none
        omega
      have ht : tickCompute tempo (flatMeasures sections) startT now = TickResult.done := by
        simp [tickCompute, not_lt.mpr h0, habs, hnone]
      refine ⟨ht, ?_⟩
      intro s frameId h1 h2 h3
      simp [updatePlaybackProgress, h1, h2, h3, ht]
  · intro i h
    simp [flatMeasures]
  · intro e he
    rw [flatMeasures, mem_mapIdx_iff] at he
    obtain ⟨i, hi, he⟩ := he
    obtain ⟨inner, hinner, hpin⟩ := List.mem_flatten.mp (List.getElem_mem hi)
    obtain ⟨sIdx, hs, hinner⟩ := mem_mapIdx_iff.mp hinner
    rw [← hinner] at hpin
    obtain ⟨mIdx, hm, hpin⟩ := mem_mapIdx_iff.mp hpin
    refine ⟨sections[sIdx], ?_, ?_⟩
    · have h1 : e.sectionIdx = sIdx := by rw [← he, ← hpin]
      rw [h1]
      exact List.getElem?_eq_some_iff.mpr ⟨hs, rfl⟩
    · have h1 : e.measureIdx = mIdx := by rw [← he, ← hpin]
      have h2 : e.measure = sections[sIdx].measures[mIdx] := by rw [← he, ← hpin]
      rw [h1, h2]
      exact List.getElem?_eq_some_iff.mpr ⟨hm, rfl⟩

/-- C1 witness: the spec's end-to-end scenario — two sections of one
measure each at tempo 120, polled at `elapsed = secondsPerMeasure + 0.1`,
reports section 1, measure 0, position 0. -/
theorem playhead_tick_witness :
    tickCompute (some 120)
        (flatMeasures [SSection.mk [SMeasure.mk [SNote.mk 1 "0" 0]],
                       SSection.mk [SMeasure.mk [SNote.mk 1 "0" 0]]])
        0 (21 / 10)
      = TickResult.playing 1 0 0 := by
  have h := (playhead_tick (some 120)
      [SSection.mk [SMeasure.mk [SNote.mk 1 "0" 0]],
       SSection.mk [SMeasure.mk [SNote.mk 1 "0" 0]]]
      (flatMeasures [SSection.mk [SMeasure.mk [SNote.mk 1 "0" 0]],
                     SSection.mk [SMeasure.mk [SNote.mk 1 "0" 0]]])
      0 (21 / 10) (21 / 10) (1 / 8) rfl (by norm_num)
      (by norm_num [timeGrid, effTempo])).2.1
    (by norm_num) 16 1 0 (by norm_num) (by norm_num) (by norm_num)
  exact (h.1 ⟨1, 0, 1, SMeasure.mk [SNote.mk 1 "0" 0]⟩ (by norm_num) rfl).1

/-- A field is benign for the repair step iff it is a sequence or falsy. -/
lemma benignField_iff (v : JsonVal) :
    (match v with | JsonVal.arr _ => true | w => !truthy w) = true ↔
      (∃ xs, v = JsonVal.arr xs) ∨ truthy v = false := by
  cases v <;> simp [truthy]

/-- On an assignable target, a benign field always repairs to a sequence. -/
lemma defaultEmpty_arr (m : JsonVal) {v : JsonVal} (hm : canAssign m = true)
    (hv : (∃ xs, v = JsonVal.arr xs) ∨ truthy v = false) :
    ∃ xs, defaultEmpty m v = some (JsonVal.arr xs) := by
  rcases hv with ⟨xs, rfl⟩ | hv
  · exact ⟨xs, by simp [defaultEmpty, truthy]⟩
  · exact ⟨[], by simp [defaultEmpty, hv, hm]⟩

/-- A benign measure sanitizes successfully, with a chords sequence. -/
lemma sanitizeMeasure_benign {m : JsonVal} (hb : benignMeasure m = true) :
    ∃ tm, sanitizeMeasure m = Except.ok tm ∧ ∃ cs, tm.chords = JsonVal.arr cs := by
  cases m <;> simp [benignMeasure] at hb
  case obj fs =>
    obtain ⟨hb1, hb2⟩ := hb
    obtain ⟨nxs, hn⟩ := defaultEmpty_arr (JsonVal.obj fs) rfl ((benignField_iff _).mp hb1)
    obtain ⟨cxs, hc⟩ := defaultEmpty_arr (JsonVal.obj fs) rfl ((benignField_iff _).mp hb2)
    refine ⟨⟨JsonVal.arr cxs, sortTNotes (nxs.filterMap sanitizeNote)⟩, ?_, ⟨cxs, rfl⟩⟩
    simp [sanitizeMeasure, getProp, hn, hc]

/-- Benign measures traverse without raising, with all-sequence chords. -/
lemma mapExcept_benign_measures {ms : List JsonVal}
    (h : ∀ m ∈ ms, benignMeasure m = true) :
    ∃ tms, mapExcept sanitizeMeasure ms = Except.ok tms ∧
      ∀ tm ∈ tms, ∃ cs, tm.chords = JsonVal.arr cs := by
  induction ms with
  | nil => exact ⟨[], rfl, by simp⟩
  | cons m ms ih =>
    obtain ⟨tm, htm, hcs⟩ := sanitizeMeasure_benign (h m (List.mem_cons_self _ _))
    obtain ⟨tms, htms, hall⟩ := ih (fun x hx => h x (List.mem_cons_of_mem _ hx))
    refine ⟨tm :: tms, by simp [mapExcept, htm, htms], ?_⟩
    intro x hx
    rcases List.mem_cons.mp hx with rfl | hx
    · exact hcs
    · exact hall x hx

/-- A benign section sanitizes successfully, with all-sequence chords. -/
lemma sanitizeSection_benign {s : JsonVal} (hb : benignSection s = true) :
    ∃ ts, sanitizeSection s = Except.ok ts ∧
      ∀ tm ∈ ts.measures, ∃ cs, tm.chords = JsonVal.arr cs := by
  cases s <;> simp [benignSection] at hb
  case obj fs =>
    have hb' : (∃ ms, (getField fs "measures").getD JsonVal.undefined = JsonVal.arr ms ∧
        ms.all benignMeasure = true) ∨
        truthy ((getField fs "measures").getD JsonVal.undefined) = false := by
      rcases hv : (getField fs "measures").getD JsonVal.undefined with
        _ | _ | b | q | st | ms | ofs <;> rw [hv] at hb <;> simp [truthy] at hb ⊢ <;>
        try exact hb
    rcases hb' with ⟨ms, hms, hall⟩ | hfal
    · obtain ⟨tms, htms, hcomp⟩ := mapExcept_benign_measures
        (fun m hm => List.all_eq_true.mp hall m hm)
      refine ⟨⟨tms⟩, ?_, hcomp⟩
      simp [sanitizeSection, getProp, hms, defaultEmpty, truthy, htms]
    · refine ⟨⟨[]⟩, ?_, by simp⟩
      simp [sanitizeSection, getProp, defaultEmpty, hfal, canAssign, mapExcept]

/-- Benign sections traverse without raising, yielding a complete result. -/
lemma mapExcept_benign_sections {ss : List JsonVal}
    (h : ∀ s ∈ ss, benignSection s = true) :
    ∃ out, mapExcept sanitizeSection ss = Except.ok out ∧ completeResult out := by
  induction ss with
  | nil => exact ⟨[], rfl, by simp [completeResult]⟩
  | cons s ss ih =>
    obtain ⟨ts, hts, hcs⟩ := sanitizeSection_benign (h s (List.mem_cons_self _ _))
    obtain ⟨out, hout, hcomp⟩ := ih (fun x hx => h x (List.mem_cons_of_mem _ hx))
    refine ⟨ts :: out, by simp [mapExcept, hts, hout], ?_⟩
    intro sec hsec
    rcases List.mem_cons.mp hsec with rfl | hsec
    · exact hcs
    · exact hcomp sec hsec

/-- C3 (amended): the sanitizer raises `InvalidStructure` exactly when the
`sections` field it reads (the read itself presupposes the parsed value is
not `null`) is falsy or not a sequence.  For inputs whose sections are
objects with sequence-or-falsy `measures` of measure objects with
sequence-or-falsy `notes`/`chords`, it returns a structurally complete
result — in particular individually malformed notes of arbitrary shape
are dropped or clamped, never rejected wholesale.  (A `null` or primitive
section or measure, or a truthy non-sequence `measures`/`notes` field,
instead raises a TypeError that rejects the whole input — the lenience
does not extend to malformed measures.) -/
theorem sanitize_structure (p : JsonVal) :
    (sanitize p = Except.error SanErr.invalidStructure ↔
      ∃ v, getProp p "sections" = Except.ok v ∧
        (truthy v = false ∨ isArr v = false)) ∧
    (∀ ss : List JsonVal, getProp p "sections" = Except.ok (JsonVal.arr ss) →
      (∀ s ∈ ss, benignSection s = true) →
      ∃ out, sanitize p = Except.ok out ∧ completeResult out) := by
  constructor
  · cases hsec : getProp p "sections" with
    | error e => simp [sanitize, hsec]
    | ok v =>
      cases htr : truthy v with
      | false => simp [sanitize, hsec, htr]
      | true =>
        cases v <;> simp_all [sanitize, truthy, isArr]
        case arr ss =>
          cases hm : mapExcept sanitizeSection ss <;> simp [hm]
  · intro ss hsec hb
    obtain ⟨out, hout, hcomp⟩ := mapExcept_benign_sections hb
    exact ⟨out, by simp [sanitize, hsec, truthy, hout], hcomp⟩

/-- C3 counterexample: a sections sequence containing an individually
malformed measure (`null`) makes the whole sanitization raise a TypeError
(surfaced as the "UNKNOWN" transcription error), so the code does reject
the whole input because of one malformed measure, and not with
`InvalidStructure`. -/
theorem sanitize_malformed_measure_counterexample :
    sanitize (JsonVal.obj [("sections",
        JsonVal.arr [JsonVal.obj [("measures", JsonVal.arr [JsonVal.null])]])])
      = Except.error SanErr.typeError ∧
    SanErr.typeError ≠ SanErr.invalidStructure := by
  exact ⟨rfl, by decide⟩

/-- C3 witness: the amended theorem applied to a one-section, one-empty-
measure input, producing a structurally complete result. -/
theorem sanitize_structure_witness :
    ∃ out, sanitize (JsonVal.obj [("sections",
        JsonVal.arr [JsonVal.obj [("measures", JsonVal.arr [JsonVal.obj []])]])])
      = Except.ok out ∧ completeResult out :=
  (sanitize_structure _).2 [JsonVal.obj [("measures", JsonVal.arr [JsonVal.obj []])]]
    rfl (by decide)

/-- The stable sort of sanitized notes is sorted by position. -/
lemma sortTNotes_sorted (ns : List TNote) :
    (sortTNotes ns).Pairwise (fun a b => a.position ≤ b.position) := by
  have h : (sortTNotes ns).Pairwise
      (fun a b => decide (a.position ≤ b.position) = true) := by
    apply List.sorted_mergeSort
    · intro a b c hab hbc
      simp only [decide_eq_true_eq] at *
      exact le_trans hab hbc
    · intro a b
      simpa using le_total a.position b.position
  exact h.imp (fun hab => by simpa using hab)

/-- The sort of sanitized notes keeps tied positions in input order. -/
lemma sortTNotes_stable (ns : List TNote) (a b : TNote)
    (hab : a.position = b.position) (h : List.Sublist [a, b] ns) : List.Sublist [a, b] (sortTNotes ns) := by
  apply List.pair_sublist_mergeSort
  · intro x y z hxy hyz
    simp only [decide_eq_true_eq] at *
    exact le_trans hxy hyz
  · intro x y
    simpa using le_total x.position y.position
  · simp [hab]
  · exact h

/-- The sort of sanitized notes permutes its input. -/
lemma sortTNotes_perm (ns : List TNote) : (sortTNotes ns).Perm ns :=
  List.mergeSort_perm ns _

/-- Every successful measure sanitization produces a note list of the
form `sortTNotes _`. -/
lemma sanitizeMeasure_notes_sorted {m : JsonVal} {tm : TMeasure}
    (h : sanitizeMeasure m = Except.ok tm) : ∃ ns, tm.notes = sortTNotes ns := by
  unfold sanitizeMeasure at h
  split at h
  · exact Except.noConfusion h
  · split at h
    · exact Except.noConfusion h
    · split at h
      · exact Except.noConfusion h
      · split at h
        · exact Except.noConfusion h
        · split at h
          · cases h
            exact ⟨_, rfl⟩
          · exact Except.noConfusion h

/-- C5 (amended): a surviving note's string is the rounded original
clamped into [1,6] and its position the rounded original clamped into
[0,15]; its fret is the textual form of the original fret, defaulting to
"0" when the fret is absent or when that textual form is itself falsy
(the empty string — `|| '0'` catches both); a note whose string is not a
number, or whose position coerces to a negative number, is dropped; and
every sanitized measure's surviving notes are ordered by ascending
position, stably for ties. -/
theorem sanitize_note_invariants :
    (∀ n : JsonVal, ∀ s p : ℚ,
      truthy n = true → propD n "string" = JsonVal.num s →
      toNumber (propD n "position") = some p → 0 ≤ p →
      sanitizeNote n = some { string := min (max 1 (jsRound s)) 6,
                              position := min (max 0 (jsRound p)) 15,
                              fret := fretOut (propD n "fret") }) ∧
    (∀ n : JsonVal, (∀ q : ℚ, propD n "string" ≠ JsonVal.num q) →
      sanitizeNote n = none) ∧
    (∀ n : JsonVal, ∀ p : ℚ, toNumber (propD n "position") = some p → p < 0 →
      sanitizeNote n = none) ∧
    (∀ ns : List TNote, (sortTNotes ns).Pairwise (fun a b => a.position ≤ b.position)) ∧
    (∀ ns : List TNote, ∀ a b : TNote, a.position = b.position →
      List.Sublist [a, b] ns → List.Sublist [a, b] (sortTNotes ns)) ∧
    (∀ ns : List TNote, (sortTNotes ns).Perm ns) ∧
    (∀ m : JsonVal, ∀ tm : TMeasure, sanitizeMeasure m = Except.ok tm →
      tm.notes.Pairwise (fun a b => a.position ≤ b.position)) ∧
    (fretOut JsonVal.undefined = "0" ∧
      ∀ v : JsonVal, v ≠ JsonVal.null → v ≠ JsonVal.undefined → jsToString v ≠ "" →
        fretOut v = jsToString v) := by
  refine ⟨?_, ?_, ?_, sortTNotes_sorted, sortTNotes_stable, sortTNotes_perm, ?_, rfl, ?_⟩
  · intro n s p h1 h2 h3 h4
    simp [sanitizeNote, h1, h2, h3, h4]
  · intro n hq
    cases htr : truthy n
    · simp [sanitizeNote, htr]
    · cases hv : propD n "string" <;>
        first
        | exact absurd hv (hq _)
        | simp [sanitizeNote, htr, hv]
  · intro n p hp hneg
    cases htr : truthy n
    · simp [sanitizeNote, htr]
    · cases hv : propD n "string" <;>
        simp [sanitizeNote, htr, hv, hp, not_le.mpr hneg]
  · intro m tm h
    obtain ⟨ns, hn⟩ := sanitizeMeasure_notes_sorted h
    rw [hn]
    exact sortTNotes_sorted _
  · intro v h1 h2 h3
    cases v <;> simp_all [fretOut]

/-- C5 counterexample: a note whose fret is present with textual form ""
(the empty string) is kept, but its fret becomes "0" rather than the
textual form of the original — the `|| '0'` default also fires on a
present-but-falsy textual form, not only on an absent fret. -/
theorem sanitize_note_empty_fret_counterexample :
    sanitizeNote (JsonVal.obj [("string", JsonVal.num 2),
        ("position", JsonVal.num 0), ("fret", JsonVal.str "")])
      = some { string := 2, position := 0, fret := "0" } ∧
    jsToString (JsonVal.str "") = "" ∧ ("0" : String) ≠ "" := by
  refine ⟨?_, rfl, by decide⟩
  simp [sanitizeNote, propD, getField, truthy, toNumber, fretOut, jsToString]
  norm_num [jsRound]

/-- C5 witness: the spec's own example values — `string = 7.6` clamps to
6, `position = 17.4` clamps to 15, fret text "3" survives unchanged. -/
theorem sanitize_note_invariants_witness :
    sanitizeNote (JsonVal.obj [("string", JsonVal.num 7.6),
        ("position", JsonVal.num 17.4), ("fret", JsonVal.str "3")])
      = some { string := 6, position := 15, fret := "3" } := by
  have h := sanitize_note_invariants.1
    (JsonVal.obj [("string", JsonVal.num 7.6),
        ("position", JsonVal.num 17.4), ("fret", JsonVal.str "3")])
    7.6 17.4 rfl rfl rfl (by norm_num)
  rw [h]
  norm_num [jsRound, fretOut, jsToString, propD, getField]
  decide

/-- The scheduler's defensive re-sort permutes the measure's notes. -/
lemma sortSNotes_perm (ns : List SNote) : (sortSNotes ns).Perm ns :=
  List.mergeSort_perm ns _

/-- A note whose fret does not parse contributes no sound event. -/
lemma noteEvent_none_of_parse_none {tb : List ℚ} {spp mStart : ℚ} {bad : SNote}
    (hbad : jsParseInt bad.fret = none) : noteEvent tb spp mStart bad = none := by
  simp [noteEvent, hbad]

/-- Dropping an unparseable note from a measure leaves the measure's
scheduled events a permutation of the original (same onset times, same
frequencies). -/
lemma measureEvents_perm_drop (metronome : Bool) (spb spp : ℚ) (tb : List ℚ)
    (t : ℚ) (l1 l2 : List SNote) (bad : SNote) (hbad : jsParseInt bad.fret = none) :
    (measureEvents metronome spb spp tb t (SMeasure.mk (l1 ++ bad :: l2))).Perm
      (measureEvents metronome spb spp tb t (SMeasure.mk (l1 ++ l2))) := by
  unfold measureEvents
  dsimp only
  refine List.Perm.append (List.Perm.refl _) ?_
  have p1 : ((sortSNotes (l1 ++ bad :: l2)).filterMap (noteEvent tb spp t)).Perm
      ((l1 ++ bad :: l2).filterMap (noteEvent tb spp t)) :=
    List.Perm.filterMap _ (sortSNotes_perm _)
  have p2 : (l1 ++ bad :: l2).filterMap (noteEvent tb spp t)
      = (l1 ++ l2).filterMap (noteEvent tb spp t) := by
    simp [List.filterMap_append, List.filterMap_cons,
      noteEvent_none_of_parse_none hbad]
  have p3 : ((l1 ++ l2).filterMap (noteEvent tb spp t)).Perm
      ((sortSNotes (l1 ++ l2)).filterMap (noteEvent tb spp t)) :=
    (List.Perm.filterMap _ (sortSNotes_perm _)).symm
  exact (p1.trans (p2 ▸ p3))

/-- The measure-sequence fold preserves the permutation, measure start
times of all other measures unchanged. -/
lemma scheduleFrom_perm_drop (metronome : Bool) (spb spp spm : ℚ) (tb : List ℚ)
    (msA msB : List SMeasure) (l1 l2 : List SNote) (bad : SNote)
    (hbad : jsParseInt bad.fret = none) :
    ∀ t : ℚ,
      (scheduleFrom metronome spb spp spm tb t
          (msA ++ SMeasure.mk (l1 ++ bad :: l2) :: msB)).Perm
        (scheduleFrom metronome spb spp spm tb t
          (msA ++ SMeasure.mk (l1 ++ l2) :: msB)) := by
  induction msA with
  | nil =>
    intro t
    simp only [List.nil_append, scheduleFrom]
    exact List.Perm.append (measureEvents_perm_drop metronome spb spp tb t l1 l2 bad hbad)
      (List.Perm.refl _)
  | cons m ms ih =>
    intro t
    simp only [List.cons_append, scheduleFrom]
    exact List.Perm.append_left _ (ih _)

/-- C9: a note whose fret text fails to parse (e.g. "xyz") contributes no
sound event, and removing it changes nothing else: the multiset of
scheduled events of its measure — in particular the onset time of every
other note, each being `measureStartTime + position * secondsPerPosition`
independently of the malformed note — and of the whole piece (hence all
subsequent measure start times) is exactly the same as without it. -/
theorem malformed_fret_no_timing_shift (tempo : Option ℚ) (tuning : Option String)
    (metronome : Bool) (ctxNow : ℚ) (secsPre secsPost : List SSection)
    (msPre msPost : List SMeasure) (l1 l2 : List SNote) (bad : SNote)
    (hbad : jsParseInt bad.fret = none) :
    (∀ tb : List ℚ, ∀ spp t : ℚ, noteEvent tb spp t bad = none) ∧
    (∀ spb spp : ℚ, ∀ tb : List ℚ, ∀ t : ℚ,
      (measureEvents metronome spb spp tb t (SMeasure.mk (l1 ++ bad :: l2))).Perm
        (measureEvents metronome spb spp tb t (SMeasure.mk (l1 ++ l2)))) ∧
    (playSynthEvents tempo tuning
        (secsPre ++ SSection.mk (msPre ++ SMeasure.mk (l1 ++ bad :: l2) :: msPost)
          :: secsPost) metronome ctxNow).Perm
      (playSynthEvents tempo tuning
        (secsPre ++ SSection.mk (msPre ++ SMeasure.mk (l1 ++ l2) :: msPost)
          :: secsPost) metronome ctxNow) := by
  refine ⟨fun tb spp t => noteEvent_none_of_parse_none hbad,
    fun spb spp tb t => measureEvents_perm_drop metronome spb spp tb t l1 l2 bad hbad, ?_⟩
  unfold playSynthEvents
  simp only [List.flatMap_append, List.flatMap_cons, List.append_assoc, List.cons_append,
    List.nil_append]
  rw [← List.append_assoc, ← List.append_assoc]
  exact scheduleFrom_perm_drop _ _ _ _ _ _ _ _ _ bad hbad _

/-- C9 witness: a measure containing the malformed fret "xyz" schedules,
up to order, exactly the events of the same measure without it. -/
theorem malformed_fret_no_timing_shift_witness :
    (playSynthEvents (some 120) (some "E Standard")
        [SSection.mk [SMeasure.mk [SNote.mk 1 "0" 0, SNote.mk 1 "xyz" 4, SNote.mk 2 "3" 8]]]
        false 0).Perm
      (playSynthEvents (some 120) (some "E Standard")
        [SSection.mk [SMeasure.mk [SNote.mk 1 "0" 0, SNote.mk 2 "3" 8]]] false 0) := by
  have h := (malformed_fret_no_timing_shift (some 120) (some "E Standard") false 0
      [] [] [] [] [SNote.mk 1 "0" 0] [SNote.mk 2 "3" 8] (SNote.mk 1 "xyz" 4) rfl).2.2
  simpa using h

/-- A decimal digit is not whitespace. -/
lemma digit_not_ws {c : Char} (h : c.isDigit = true) : c.isWhitespace = false := by
  by_contra hw
  rw [Bool.not_eq_false] at hw
  have hcases : c = ' ' ∨ c = '\t' ∨ c = '\r' ∨ c = '\n' := by
    revert hw
    simp [Char.isWhitespace]
    tauto
  rcases hcases with rfl | rfl | rfl | rfl <;> exact absurd h (by decide)

/-- A decimal digit is neither sign character. -/
lemma digit_ne_sign {c : Char} (h : c.isDigit = true) : c ≠ '-' ∧ c ≠ '+' := by
  constructor <;> rintro rfl <;> exact absurd h (by decide)

/-- With a digit head (and outside the `0x`/`0X` hexadecimal case),
`parseInt` returns the decimal value of the maximal digit prefix. -/
lemma jsParseInt_digit_head (c : Char) (rest : List Char) (hc : c.isDigit = true)
    (hhex : c = '0' → ∀ x r, rest = x :: r → x ≠ 'x' ∧ x ≠ 'X') :
    jsParseInt (String.mk (c :: rest))
      = some ((decVal ((c :: rest).takeWhile Char.isDigit) : ℕ) : ℤ) := by
  obtain ⟨hminus, hplus⟩ := digit_ne_sign hc
  have hw : c.isWhitespace = false := digit_not_ws hc
  have hdrop : (c :: rest).dropWhile Char.isWhitespace = c :: rest := by
    simp [List.dropWhile_cons, hw]
  have htake : (c :: rest).takeWhile Char.isDigit = c :: rest.takeWhile Char.isDigit := by
    simp [List.takeWhile_cons, hc]
  unfold jsParseInt
  simp only [hdrop]
  have hsigned : (match c :: rest with
      | '-' :: r => ((-1 : ℤ), r)
      | '+' :: r => ((1 : ℤ), r)
      | x => ((1 : ℤ), c :: rest)) = ((1 : ℤ), c :: rest) := by
    split
    next r heq =>
      exact absurd (List.head_eq_of_cons_eq heq) hminus
    next r heq =>
      exact absurd (List.head_eq_of_cons_eq heq) hplus
    next => rfl
  rw [hsigned]
  dsimp only
  split
  next x r heq =>
    have hc0 : c = '0' := List.head_eq_of_cons_eq heq
    have hr : rest = x :: r := List.tail_eq_of_cons_eq heq
    obtain ⟨hx1, hx2⟩ := hhex hc0 x r hr
    rw [if_neg (by simp [hx1, hx2])]
    rw [htake, hr]
    simp [List.takeWhile_cons, hc0]
  next hne =>
    rw [htake]
    simp

/-- C10 (amended): a note whose fret text begins with a decimal digit is
parsed by `parseInt` and — when it parses — scheduled at the frequency
derived from that value; outside the JavaScript hexadecimal-literal rule
(`0x`/`0X` prefix) the value is the decimal value of the maximal digit
prefix, so "3h5" plays fret 3 and "12b" fret 12; a fret whose parse
yields NaN (no leading integer such as "x", "h", "xyz" — or a bare hex
prefix like "0x") is the only kind that is skipped. -/
theorem digit_prefix_fret_parses :
    (∀ c : Char, ∀ rest : List Char, c.isDigit = true →
      (c = '0' → ∀ x r, rest = x :: r → x ≠ 'x' ∧ x ≠ 'X') →
      jsParseInt (String.mk (c :: rest))
        = some ((decVal ((c :: rest).takeWhile Char.isDigit) : ℕ) : ℤ)) ∧
    (∀ n : SNote, ∀ tb : List ℚ, ∀ spp t : ℚ, ∀ k : ℤ, jsParseInt n.fret = some k →
      noteEvent tb spp t n
        = some (SEvent.tone (t + n.position * spp) (baseFreqFor tb n.string) k)) ∧
    (∀ n : SNote, ∀ tb : List ℚ, ∀ spp t : ℚ, jsParseInt n.fret = none →
      noteEvent tb spp t n = none) ∧
    (jsParseInt "3h5" = some 3 ∧ jsParseInt "12b" = some 12 ∧
      jsParseInt "x" = none ∧ jsParseInt "h" = none ∧ jsParseInt "xyz" = none) ∧
    (∀ r : List Char,
      (r.takeWhile isHexDigitChar = [] →
        jsParseInt (String.mk ('0' :: 'x' :: r)) = none) ∧
      (∀ d : Char, ∀ ds : List Char, r.takeWhile isHexDigitChar = d :: ds →
        jsParseInt (String.mk ('0' :: 'x' :: r)) = some (hexVal (d :: ds)))) := by
  refine ⟨jsParseInt_digit_head, ?_, ?_, ⟨rfl, rfl, rfl, rfl, rfl⟩, ?_⟩
  · intro n tb spp t k hk
    simp [noteEvent, hk]
  · intro n tb spp t hk
    simp [noteEvent, hk]
  · intro r
    constructor
    · intro h
      simp [jsParseInt, h]
    · intro d ds h
      simp [jsParseInt, h]

/-- C10 counterexample: the fret text "0x" begins with the decimal digit
'0' followed by a non-numeric character, yet `parseInt` applies the
hexadecimal-literal rule, finds no hexadecimal digits, yields NaN, and
the note is skipped — contradicting the claim that such notes are never
skipped. -/
theorem digit_prefix_fret_counterexample :
    Char.isDigit '0' = true ∧ Char.isDigit 'x' = false ∧
    jsParseInt "0x" = none ∧
    noteEvent eStdFreqs 1 0 (SNote.mk 1 "0x" 0) = none := by
  refine ⟨by decide, by decide, rfl, ?_⟩
  have h : jsParseInt "0x" = none := rfl
  simp [noteEvent, h]

/-- C10 witness: the amended theorem applied to the fret "3h5", which
parses to 3 and is scheduled. -/
theorem digit_prefix_fret_parses_witness :
    jsParseInt (String.mk ['3', 'h', '5']) = some 3 := by
  have h := digit_prefix_fret_parses.1 '3' ['h', '5'] (by decide)
    (fun h0 => absurd h0 (by decide))
  rw [h]
  decide

/-- C6: the scheduled tone of a note on string `s` (1 = highest) with a
fret parsing to `n` carries the open-string frequency found at
low-to-high index `6 - s` of the selected tuning row, and its realized
oscillator frequency is `openFreq * 2^(n/12)`; an unrecognized tuning
name falls back to the E Standard row; and twelve frets exactly double
the open frequency — in particular E Standard string 1 ("E4", 329.63 Hz)
at fret "12" plays `329.63 * 2` (the model is exact where the code's
floating point is approximate). -/
theorem frequency_mapping (name : Option String) (s k : ℤ) (fret : String)
    (spp mStart pos : ℚ)
    (hs1 : 1 ≤ s) (hs6 : s ≤ 6) (hk : jsParseInt fret = some k) :
    (noteEvent (tuningBase name) spp mStart (SNote.mk s fret pos)
      = some (SEvent.tone (mStart + pos * spp)
          ((tuningBase name).getD (6 - s).toNat 0) k)) ∧
    (∀ base : ℚ, toneFreq base k = (base : ℝ) * (2 : ℝ) ^ ((k : ℝ) / 12)) ∧
    (∀ nm : String, TUNING_FREQS.lookup nm = none → tuningBase (some nm) = eStdFreqs) ∧
    (∀ base : ℚ, toneFreq base 12 = (base : ℝ) * 2) ∧
    (tuningBase (some "E Standard")).getD (6 - 1 : ℤ).toNat 0 = 329.63 := by
  refine ⟨by simp [noteEvent, hk, baseFreqFor], fun base => rfl, ?_, ?_, ?_⟩
  · intro nm hnm
    by_cases he : nm = ""
    · subst he
      rfl
    · simp [tuningBase, he, hnm]
  · intro base
    unfold toneFreq
    rw [show ((12 : ℤ) : ℝ) / 12 = 1 by norm_num, Real.rpow_one]
  · rfl

/-- C6 witness: the theorem applied at E Standard, string 1, fret "12";
the realized frequency is one octave above 329.63 Hz. -/
theorem frequency_mapping_witness :
    noteEvent (tuningBase (some "E Standard")) 1 0 (SNote.mk 1 "12" 0)
      = some (SEvent.tone (0 + 0 * 1)
          ((tuningBase (some "E Standard")).getD (6 - 1 : ℤ).toNat 0) 12) ∧
    toneFreq 329.63 12 = ((329.63 : ℚ) : ℝ) * 2 := by
  have h := frequency_mapping (some "E Standard") 1 12 "12" 1 0 0
    (by norm_num) (by norm_num) rfl
  exact ⟨h.1, h.2.2.2.1 329.63⟩

/-- C2 witness: the mutual-exclusion theorem applied to a concrete state
with an active synth session — requesting original playback routes
through the full teardown. -/
theorem playback_mutual_exclusion_witness :
    toggleOriginalPlayback
        (CState.mk (some (AudioEl.mk false 5)) false true true 0 [] [] (some 2)
          (some 0) (some 0) (some 0))
      = toggleCore
          (stopAllPlayback
            (CState.mk (some (AudioEl.mk false 5)) false true true 0 [] [] (some 2)
              (some 0) (some 0) (some 0)))
          false :=
  ((playback_mutual_exclusion
      (CState.mk (some (AudioEl.mk false 5)) false true true 0 [] [] (some 2)
        (some 0) (some 0) (some 0))
      none none [] false 0 0).2.2.2.2 rfl).1
